import Mathlib

/-!
Verification of the dgrants frontend core (cart.ts and grantRounds.ts) against its
natural-language specification.

The embedding below translates:
- `fixDonationRoundingErrors` (app/src/store/cart.ts, lines 514-528): the fixed-point
  ratio allocator correction pass;
- `getConvertedAmount` (app/src/store/cart.ts, lines 104-108): the token value converter;
- the round-status computation of `getGrantRound`
  (app/src/utils/data/grantRounds.ts, lines 202-207);
- `getPredictionsForGrantInRound` and `getGrantsGrantRoundDetails`
  (app/src/utils/data/grantRounds.ts, lines 332-334 and 339-374).

JavaScript `BigNumber` values are modelled as `Int`, human-readable token amounts as `Rat`,
token addresses and metadata pointers as `String`, and dictionaries as association lists.
A JavaScript exception is modelled with `Except String`; a JavaScript `undefined` field
value is modelled with `Option`.
-/

deriving instance DecidableEq for Except

/-- A donation entry as built by `getCartDonationInputs` in cart.ts:
`{ grantId, token: tokenAddress, ratio, rounds }`, with `ratio` a `BigNumber`
(modelled as `Int`). -/
structure Donation where
  grantId : Nat
  token : String
  ratio : Int
  rounds : List String
deriving DecidableEq, Repr

/-- Modelled from the spec: the constant `WAD` (imported by cart.ts from
src/utils/constants.ts, which is not under src/) is the fixed-point whole,
scale = 10^18 ("an integer in fixed-point units (scale = 10^18)"). -/
def WAD : Int := 10 ^ 18

/-- The per-token ratio sum computed inside `fixDonationRoundingErrors`:
`donations.reduce((acc, curr) => acc.add(curr.token === token ? curr.ratio : 0), BigNumber.from(0))`. -/
def tokenSum (donations : List Donation) (token : String) : Int :=
  donations.foldl (fun acc curr => acc + (if curr.token = token then curr.ratio else 0)) 0

/-- The `donations.forEach((donation, index) => ...)` loop of `fixDonationRoundingErrors`
(cart.ts lines 515-525), made explicit as index-recursion over the in-place-mutated
array. At each index the current per-token sum is recomputed over the *current* array,
a sum above `WAD` throws, and otherwise the shortfall `WAD - sum` is added to the
element at the current index. `forEach` visits indices `0 .. length - 1` (the loop body
never changes the length), so the recursion is driven by a fuel argument that the
caller instantiates with the array length. -/
def fixLoop (fuel : Nat) (donations : List Donation) (i : Nat) : Except String (List Donation) :=
  match fuel with
  | 0 => .ok donations
  | fuel + 1 =>
    if h : i < donations.length then
      let donation := donations.get ⟨i, h⟩
      let sum := tokenSum donations donation.token
      if WAD < sum then .error "Ratios sum to greater than 100%"
      else
        fixLoop fuel (donations.set i { donation with ratio := donation.ratio + (WAD - sum) }) (i + 1)
    else .ok donations

/-- Embeds `fixDonationRoundingErrors` (cart.ts lines 514-528): runs the forEach loop
from index 0 and returns the adjusted array (or the thrown error). -/
def fixDonationRoundingErrors (donations : List Donation) : Except String (List Donation) :=
  fixLoop donations.length donations 0

-- Sanity checks of the embedding on concrete inputs.
example :
    fixDonationRoundingErrors
      [⟨1, "DAI", 333333333333333333, []⟩, ⟨2, "DAI", 333333333333333333, []⟩,
       ⟨3, "DAI", 333333333333333333, []⟩] =
    .ok [⟨1, "DAI", 333333333333333334, []⟩, ⟨2, "DAI", 333333333333333333, []⟩,
         ⟨3, "DAI", 333333333333333333, []⟩] := by decide

example :
    fixDonationRoundingErrors [⟨1, "DAI", 2 * WAD, []⟩] =
    .error "Ratios sum to greater than 100%" := by decide

example :
    fixDonationRoundingErrors [⟨1, "ETH", WAD - 7, []⟩, ⟨2, "DAI", WAD, []⟩] =
    .ok [⟨1, "ETH", WAD, []⟩, ⟨2, "DAI", WAD, []⟩] := by decide

/-- Index of the first donation carrying `token`, in input order
(equals `donations.length` when no donation carries it). -/
def firstTokenIdx (donations : List Donation) (token : String) : Nat :=
  donations.findIdx (fun d => d.token = token)

/-- The designated first-in-group donation with the whole group shortfall
`WAD - tokenSum orig token` applied to its ratio. -/
def bumped (orig : List Donation) (d : Donation) : Donation :=
  { d with ratio := d.ratio + (WAD - tokenSum orig d.token) }

/-- Value of the element at index `j` of the donations array once the loop of
`fixDonationRoundingErrors` has processed all indices `< i`: the first donation of each
token group receives the group shortfall, every other donation is unchanged. -/
def bumpAt (orig : List Donation) (i j : Nat) (d : Donation) : Donation :=
  if j < i ∧ firstTokenIdx orig d.token = j then bumped orig d else d

/-- Map a function that also receives the element's index (offset by `k`). -/
def mapWithIdx (f : Nat → Donation → Donation) : Nat → List Donation → List Donation
  | _, [] => []
  | k, d :: ds => f k d :: mapWithIdx f (k + 1) ds

/-- The state of the donations array after the loop of `fixDonationRoundingErrors`
has processed all indices `< i`. -/
def fixUpTo (orig : List Donation) (i : Nat) : List Donation :=
  mapWithIdx (bumpAt orig i) 0 orig

/-- Ratio contribution of a donation to the sum of the group of `token`. -/
def ratioIfToken (token : String) (d : Donation) : Int :=
  if d.token = token then d.ratio else 0

lemma length_mapWithIdx (f : Nat → Donation → Donation) :
    ∀ (k : Nat) (l : List Donation), (mapWithIdx f k l).length = l.length := by
  intro k l
  induction l generalizing k with
  | nil => rfl
  | cons d ds ih => simp [mapWithIdx, ih]

lemma getElem?_mapWithIdx (f : Nat → Donation → Donation) :
    ∀ (k : Nat) (l : List Donation) (j : Nat),
      (mapWithIdx f k l)[j]? = (l[j]?).map (f (k + j)) := by
  intro k l
  induction l generalizing k with
  | nil => intro j; simp [mapWithIdx]
  | cons d ds ih =>
    intro j
    cases j with
    | zero => simp [mapWithIdx]
    | succ j =>
      simp only [mapWithIdx, List.getElem?_cons_succ]
      rw [ih (k + 1) j, show k + 1 + j = k + (j + 1) from by omega]

lemma length_fixUpTo (orig : List Donation) (i : Nat) :
    (fixUpTo orig i).length = orig.length :=
  length_mapWithIdx _ 0 orig

lemma getElem?_fixUpTo (orig : List Donation) (i j : Nat) :
    (fixUpTo orig i)[j]? = (orig[j]?).map (bumpAt orig i j) := by
  simpa using getElem?_mapWithIdx (bumpAt orig i) 0 orig j

lemma fixUpTo_zero (orig : List Donation) : fixUpTo orig 0 = orig := by
  apply List.ext_getElem?
  intro j
  rw [getElem?_fixUpTo]
  cases h : orig[j]? with
  | none => rfl
  | some d => simp only [bumpAt, Nat.not_lt_zero, false_and, if_false, Option.map_some']

lemma token_bumpAt (orig : List Donation) (i j : Nat) (d : Donation) :
    (bumpAt orig i j d).token = d.token := by
  unfold bumpAt bumped
  split <;> rfl

lemma donation_add_zero (d : Donation) :
    ({ d with ratio := d.ratio + 0 } : Donation) = d := by
  cases d; simp

lemma foldl_add_eq (f : Donation → Int) :
    ∀ (l : List Donation) (a : Int), l.foldl (fun acc d => acc + f d) a = a + (l.map f).sum := by
  intro l
  induction l with
  | nil => intro a; simp
  | cons d ds ih => intro a; simp [ih, add_assoc]

lemma tokenSum_eq_sum_map (donations : List Donation) (token : String) :
    tokenSum donations token = (donations.map (ratioIfToken token)).sum := by
  unfold tokenSum ratioIfToken
  rw [foldl_add_eq (fun d => if d.token = token then d.ratio else 0) donations 0, zero_add]

lemma sum_set_int :
    ∀ (l : List Int) (j : Nat) (x : Int) (h : j < l.length),
      (l.set j x).sum = l.sum - l[j] + x := by
  intro l
  induction l with
  | nil => intro j x h; simp at h
  | cons a as ih =>
    intro j x h
    cases j with
    | zero => simp [List.set]; ring
    | succ j =>
      have hj : j < as.length := by simpa using h
      simp [List.set, ih j x hj]
      ring

lemma firstTokenIdx_le (orig : List Donation) (token : String) (j : Nat) (d : Donation)
    (hj : orig[j]? = some d) (ht : d.token = token) : firstTokenIdx orig token ≤ j := by
  obtain ⟨hjl, hget⟩ := List.getElem?_eq_some.mp hj
  by_contra hlt
  push_neg at hlt
  rw [firstTokenIdx] at hlt
  have hfalse := List.not_of_lt_findIdx hlt
  rw [hget] at hfalse
  simp [ht] at hfalse

lemma token_of_firstTokenIdx (orig : List Donation) (token : String)
    (h : firstTokenIdx orig token < orig.length) :
    ∃ d, orig[firstTokenIdx orig token]? = some d ∧ d.token = token := by
  refine ⟨orig[firstTokenIdx orig token], List.getElem?_eq_getElem h, ?_⟩
  have h' : firstTokenIdx orig token < orig.length := h
  rw [firstTokenIdx] at h'
  have hp := List.findIdx_getElem (w := h')
  simpa [firstTokenIdx] using hp

lemma map_ratioIfToken_fixUpTo_of_le (orig : List Donation) (token : String) (i : Nat)
    (h : i ≤ firstTokenIdx orig token) :
    (fixUpTo orig i).map (ratioIfToken token) = orig.map (ratioIfToken token) := by
  apply List.ext_getElem?
  intro j
  rw [List.getElem?_map, List.getElem?_map, getElem?_fixUpTo]
  cases hj : orig[j]? with
  | none => rfl
  | some d =>
    simp only [Option.map_some']
    congr 1
    unfold bumpAt
    split
    case isTrue hcond =>
      obtain ⟨hji, hfirst⟩ := hcond
      have hne : d.token ≠ token := by
        intro he
        rw [he] at hfirst
        omega
      unfold bumped ratioIfToken
      simp [hne]
    case isFalse hcond => rfl

lemma tokenSum_fixUpTo_of_le (orig : List Donation) (token : String) (i : Nat)
    (h : i ≤ firstTokenIdx orig token) :
    tokenSum (fixUpTo orig i) token = tokenSum orig token := by
  rw [tokenSum_eq_sum_map, tokenSum_eq_sum_map, map_ratioIfToken_fixUpTo_of_le orig token i h]

lemma tokenSum_fixUpTo_of_lt (orig : List Donation) (token : String) (i : Nat)
    (hi : i ≤ orig.length) (hf : firstTokenIdx orig token < i) :
    tokenSum (fixUpTo orig i) token = WAD := by
  have hfl : firstTokenIdx orig token < orig.length := lt_of_lt_of_le hf hi
  obtain ⟨df, hdf, hdft⟩ := token_of_firstTokenIdx orig token hfl
  have hdfget : orig[firstTokenIdx orig token] = df := by
    have := List.getElem?_eq_getElem hfl
    rw [hdf] at this
    exact (Option.some_injective _ this.symm)
  have hmap : (fixUpTo orig i).map (ratioIfToken token)
      = (orig.map (ratioIfToken token)).set (firstTokenIdx orig token)
          (df.ratio + (WAD - tokenSum orig token)) := by
    apply List.ext_getElem?
    intro j
    rw [List.getElem?_map, List.getElem?_set, getElem?_fixUpTo]
    by_cases hij : firstTokenIdx orig token = j
    · subst hij
      rw [hdf]
      have hlen : firstTokenIdx orig token < (orig.map (ratioIfToken token)).length := by
        rw [List.length_map]; exact hfl
      rw [if_pos rfl, if_pos hlen]
      simp only [Option.map_some']
      congr 1
      unfold bumpAt
      rw [if_pos ⟨hf, by rw [hdft]⟩]
      unfold bumped ratioIfToken
      simp [hdft]
    · rw [if_neg hij, List.getElem?_map]
      cases he : orig[j]? with
      | none => rfl
      | some e =>
        simp only [Option.map_some']
        congr 1
        unfold bumpAt
        split
        next hcond =>
          obtain ⟨hji, hfirst⟩ := hcond
          have hne : e.token ≠ token := by
            intro heq
            rw [heq] at hfirst
            exact hij hfirst
          unfold bumped ratioIfToken
          simp [hne]
        next hcond => rfl
  have hproj : ratioIfToken token df = df.ratio := by
    unfold ratioIfToken
    rw [if_pos hdft]
  rw [tokenSum_eq_sum_map, hmap,
    sum_set_int (orig.map (ratioIfToken token)) (firstTokenIdx orig token)
      (df.ratio + (WAD - tokenSum orig token)) (by rw [List.length_map]; exact hfl)]
  rw [List.getElem_map, hdfget, hproj, ← tokenSum_eq_sum_map]
  ring

lemma fixUpTo_succ (orig : List Donation) (i : Nat) (d : Donation) (hd : orig[i]? = some d) :
    fixUpTo orig (i + 1) = (fixUpTo orig i).set i (bumpAt orig (i + 1) i d) := by
  apply List.ext_getElem?
  intro j
  rw [getElem?_fixUpTo, List.getElem?_set]
  by_cases hij : i = j
  · subst hij
    rw [hd]
    have hlen : i < (fixUpTo orig i).length := by
      rw [length_fixUpTo]
      exact (List.getElem?_eq_some.mp hd).1
    rw [if_pos rfl, if_pos hlen]
    rfl
  · rw [if_neg hij, getElem?_fixUpTo]
    cases he : orig[j]? with
    | none => rfl
    | some e =>
      simp only [Option.map_some']
      congr 1
      unfold bumpAt
      split_ifs with h1 h2 <;> first | rfl | (exfalso; omega)

lemma fixLoop_zero (donations : List Donation) (i : Nat) :
    fixLoop 0 donations i = .ok donations := rfl

lemma fixLoop_succ_ge (fuel : Nat) (donations : List Donation) (i : Nat)
    (h : ¬ i < donations.length) : fixLoop (fuel + 1) donations i = .ok donations := by
  unfold fixLoop
  rw [dif_neg h]

lemma fixLoop_succ_lt (fuel : Nat) (donations : List Donation) (i : Nat)
    (h : i < donations.length) :
    fixLoop (fuel + 1) donations i =
      if WAD < tokenSum donations (donations.get ⟨i, h⟩).token
      then .error "Ratios sum to greater than 100%"
      else fixLoop fuel
        (donations.set i
          { donations.get ⟨i, h⟩ with
            ratio := (donations.get ⟨i, h⟩).ratio
              + (WAD - tokenSum donations (donations.get ⟨i, h⟩).token) }) (i + 1) := by
  conv_lhs => unfold fixLoop
  rw [dif_pos h]


/-- Master characterization of the `fixDonationRoundingErrors` loop: started at index `i`
on the state `fixUpTo orig i` (with all groups first seen before `i` within bounds),
it throws exactly when some not-yet-visited donation's token group exceeds `WAD`,
and otherwise completes to `fixUpTo orig orig.length`. -/
lemma fixLoop_master (orig : List Donation) :
    ∀ (fuel i : Nat), orig.length ≤ i + fuel → i ≤ orig.length →
      (∀ j d, j < i → orig[j]? = some d → tokenSum orig d.token ≤ WAD) →
      ((∃ k d, i ≤ k ∧ orig[k]? = some d ∧ WAD < tokenSum orig d.token) →
          fixLoop fuel (fixUpTo orig i) i = .error "Ratios sum to greater than 100%")
      ∧ ((∀ k d, i ≤ k → orig[k]? = some d → tokenSum orig d.token ≤ WAD) →
          fixLoop fuel (fixUpTo orig i) i = .ok (fixUpTo orig orig.length)) := by
  intro fuel
  induction fuel with
  | zero =>
    intro i hfuel hi hprior
    have hieq : i = orig.length := by omega
    subst hieq
    constructor
    · rintro ⟨k, d, hk, hkd, _⟩
      rw [List.getElem?_eq_none (by omega)] at hkd
      simp at hkd
    · intro _
      rw [fixLoop_zero]
  | succ fuel ih =>
    intro i hfuel hi hprior
    by_cases hil : i < orig.length
    case neg =>
      have hieq : i = orig.length := by omega
      subst hieq
      constructor
      · rintro ⟨k, d, hk, hkd, _⟩
        rw [List.getElem?_eq_none (by omega)] at hkd
        simp at hkd
      · intro _
        rw [fixLoop_succ_ge]
        rw [length_fixUpTo]
        omega
    case pos =>
      obtain ⟨d, hd⟩ : ∃ x, orig[i]? = some x := ⟨orig[i], List.getElem?_eq_getElem hil⟩
      have hcl : i < (fixUpTo orig i).length := by rw [length_fixUpTo]; exact hil
      have hbi : bumpAt orig i i d = d := by
        unfold bumpAt
        rw [if_neg]
        omega
      have hq : (fixUpTo orig i)[i]? = some d := by
        rw [getElem?_fixUpTo, hd, Option.map_some', hbi]
      have hcur : (fixUpTo orig i).get ⟨i, hcl⟩ = d := by
        have h2 := List.getElem?_eq_getElem hcl
        rw [hq] at h2
        exact (Option.some.inj h2).symm
      have hstep := fixLoop_succ_lt fuel (fixUpTo orig i) i hcl
      rw [hcur] at hstep
      have hfle : firstTokenIdx orig d.token ≤ i := firstTokenIdx_le orig d.token i d hd rfl
      by_cases hff : firstTokenIdx orig d.token = i
      case pos =>
        have hsum : tokenSum (fixUpTo orig i) d.token = tokenSum orig d.token :=
          tokenSum_fixUpTo_of_le orig d.token i (by omega)
        rw [hsum] at hstep
        by_cases hex : WAD < tokenSum orig d.token
        case pos =>
          rw [if_pos hex] at hstep
          constructor
          · intro _
            exact hstep
          · intro hall
            exact absurd (hall i d le_rfl hd) (by omega)
        case neg =>
          rw [if_neg hex] at hstep
          have hwrite : ({ d with ratio := d.ratio + (WAD - tokenSum orig d.token) } : Donation)
              = bumpAt orig (i + 1) i d := by
            unfold bumpAt
            rw [if_pos ⟨Nat.lt_succ_self i, hff⟩]
            rfl
          rw [hwrite, ← fixUpTo_succ orig i d hd] at hstep
          have hprior' : ∀ j d', j < i + 1 → orig[j]? = some d' → tokenSum orig d'.token ≤ WAD := by
            intro j d' hj hjd
            by_cases hji : j = i
            · subst hji
              rw [hd] at hjd
              obtain rfl := Option.some.inj hjd
              omega
            · exact hprior j d' (by omega) hjd
          have hres := ih (i + 1) (by omega) (by omega) hprior'
          rw [hstep]
          constructor
          · rintro ⟨k, d', hk, hkd, hex'⟩
            apply hres.1
            refine ⟨k, d', ?_, hkd, hex'⟩
            by_cases hki : k = i
            · subst hki
              rw [hd] at hkd
              obtain rfl := Option.some.inj hkd
              omega
            · omega
          · intro hall
            apply hres.2
            intro k d' hk hkd
            exact hall k d' (by omega) hkd
      case neg =>
        have hflt : firstTokenIdx orig d.token < i := by omega
        have hsum : tokenSum (fixUpTo orig i) d.token = WAD :=
          tokenSum_fixUpTo_of_lt orig d.token i (by omega) hflt
        rw [hsum] at hstep
        rw [if_neg (by omega : ¬ WAD < WAD)] at hstep
        have hgs : tokenSum orig d.token ≤ WAD := by
          have hfl2 : firstTokenIdx orig d.token < orig.length := by omega
          obtain ⟨df, hdf, hdft⟩ := token_of_firstTokenIdx orig d.token hfl2
          have hb := hprior (firstTokenIdx orig d.token) df hflt hdf
          rw [hdft] at hb
          exact hb
        have hwrite : ({ d with ratio := d.ratio + (WAD - WAD) } : Donation)
            = bumpAt orig (i + 1) i d := by
          unfold bumpAt
          rw [if_neg (fun hc => hff hc.2), sub_self]
          exact donation_add_zero d
        rw [hwrite, ← fixUpTo_succ orig i d hd] at hstep
        have hprior' : ∀ j d', j < i + 1 → orig[j]? = some d' → tokenSum orig d'.token ≤ WAD := by
          intro j d' hj hjd
          by_cases hji : j = i
          · subst hji
            rw [hd] at hjd
            obtain rfl := Option.some.inj hjd
            exact hgs
          · exact hprior j d' (by omega) hjd
        have hres := ih (i + 1) (by omega) (by omega) hprior'
        rw [hstep]
        constructor
        · rintro ⟨k, d', hk, hkd, hex'⟩
          apply hres.1
          refine ⟨k, d', ?_, hkd, hex'⟩
          by_cases hki : k = i
          · subst hki
            rw [hd] at hkd
            obtain rfl := Option.some.inj hkd
            omega
          · omega
        · intro hall
          apply hres.2
          intro k d' hk hkd
          exact hall k d' (by omega) hkd

lemma fixDonationRoundingErrors_eq_ok (donations : List Donation)
    (hpre : ∀ d ∈ donations, tokenSum donations d.token ≤ WAD) :
    fixDonationRoundingErrors donations = .ok (fixUpTo donations donations.length) := by
  have h := (fixLoop_master donations donations.length 0 (by omega) (by omega)
      (fun j d' hj _ => absurd hj (Nat.not_lt_zero j))).2
    (fun k d' _ hkd => hpre d' (List.getElem?_mem hkd))
  rw [fixUpTo_zero] at h
  unfold fixDonationRoundingErrors
  exact h

lemma fixDonationRoundingErrors_eq_error (donations : List Donation)
    (hex : ∃ d ∈ donations, WAD < tokenSum donations d.token) :
    fixDonationRoundingErrors donations = .error "Ratios sum to greater than 100%" := by
  obtain ⟨d, hd, hx⟩ := hex
  obtain ⟨k, hkl, hkg⟩ := List.getElem_of_mem hd
  have hk? : donations[k]? = some d := by rw [List.getElem?_eq_getElem hkl, hkg]
  have h := (fixLoop_master donations donations.length 0 (by omega) (by omega)
      (fun j d' hj _ => absurd hj (Nat.not_lt_zero j))).1 ⟨k, d, Nat.zero_le k, hk?, hx⟩
  rw [fixUpTo_zero] at h
  unfold fixDonationRoundingErrors
  exact h

lemma tokenSum_fixed_result (donations : List Donation) :
    ∀ t, (∃ d ∈ fixUpTo donations donations.length, d.token = t) →
      tokenSum (fixUpTo donations donations.length) t = WAD := by
  rintro t ⟨d, hd, hdt⟩
  obtain ⟨j, hjl, hjg⟩ := List.getElem_of_mem hd
  have hj? : (fixUpTo donations donations.length)[j]? = some d := by
    rw [List.getElem?_eq_getElem hjl, hjg]
  rw [getElem?_fixUpTo] at hj?
  cases he : donations[j]? with
  | none => rw [he] at hj?; simp at hj?
  | some e =>
    rw [he, Option.map_some'] at hj?
    have hde := Option.some.inj hj?
    have htok : e.token = t := by rw [← hdt, ← hde, token_bumpAt]
    have hfle : firstTokenIdx donations t ≤ j := firstTokenIdx_le donations t j e he htok
    have hlen : j < donations.length := (List.getElem?_eq_some.mp he).1
    exact tokenSum_fixUpTo_of_lt donations t donations.length le_rfl (by omega)

lemma fixUpTo_of_all_WAD (l : List Donation)
    (hall : ∀ d ∈ l, tokenSum l d.token = WAD) : fixUpTo l l.length = l := by
  apply List.ext_getElem?
  intro j
  rw [getElem?_fixUpTo]
  cases he : l[j]? with
  | none => rfl
  | some e =>
    simp only [Option.map_some']
    congr 1
    unfold bumpAt
    split
    next hc =>
      unfold bumped
      rw [hall e (List.getElem?_mem he), sub_self]
      exact donation_add_zero e
    next hc => rfl

/-- C1: for every donations array in which, for each distinct token, the input ratios of
the donations carrying that token sum to at most `WAD` (1e18), `fixDonationRoundingErrors`
returns an array in which, for every distinct token, the ratios of all donations carrying
that token sum to exactly `WAD`. -/
theorem fixDonationRoundingErrors_sums_to_WAD (donations : List Donation)
    (hpre : ∀ d ∈ donations, tokenSum donations d.token ≤ WAD) :
    ∃ res, fixDonationRoundingErrors donations = .ok res ∧
      ∀ t, (∃ d ∈ res, d.token = t) → tokenSum res t = WAD :=
  ⟨fixUpTo donations donations.length, fixDonationRoundingErrors_eq_ok donations hpre,
    tokenSum_fixed_result donations⟩

/-- Witness for C1 at a concrete two-donation cart. -/
theorem fixDonationRoundingErrors_sums_to_WAD_witness :
    (∀ d ∈ [(⟨1, "DAI", 400000000000000000, []⟩ : Donation),
            ⟨2, "DAI", 300000000000000000, []⟩],
       tokenSum [(⟨1, "DAI", 400000000000000000, []⟩ : Donation),
                 ⟨2, "DAI", 300000000000000000, []⟩] d.token ≤ WAD)
    ∧ ∃ res,
        fixDonationRoundingErrors
          [(⟨1, "DAI", 400000000000000000, []⟩ : Donation),
           ⟨2, "DAI", 300000000000000000, []⟩] = .ok res ∧
        ∀ t, (∃ d ∈ res, d.token = t) → tokenSum res t = WAD :=
  ⟨by decide, fixDonationRoundingErrors_sums_to_WAD _ (by decide)⟩

/-- C2: under the same precondition, the whole shortfall of each token group is added to
the first donation of that group in input order, and every other donation keeps its
input ratio unchanged. -/
theorem fixDonationRoundingErrors_shortfall_to_first (donations : List Donation)
    (hpre : ∀ d ∈ donations, tokenSum donations d.token ≤ WAD) :
    ∃ res, fixDonationRoundingErrors donations = .ok res ∧
      res.length = donations.length ∧
      ∀ j d, donations[j]? = some d →
        res[j]? = some (if firstTokenIdx donations d.token = j
          then { d with ratio := d.ratio + (WAD - tokenSum donations d.token) }
          else d) := by
  refine ⟨fixUpTo donations donations.length, fixDonationRoundingErrors_eq_ok donations hpre,
    length_fixUpTo donations donations.length, ?_⟩
  intro j d hjd
  rw [getElem?_fixUpTo, hjd, Option.map_some']
  congr 1
  have hjl : j < donations.length := (List.getElem?_eq_some.mp hjd).1
  unfold bumpAt bumped
  by_cases hf : firstTokenIdx donations d.token = j
  · rw [if_pos ⟨hjl, hf⟩, if_pos hf]
  · rw [if_neg (fun hc => hf hc.2), if_neg hf]

/-- Witness for C2 at a concrete three-donation cart with truncated thirds. -/
theorem fixDonationRoundingErrors_shortfall_to_first_witness :
    (∀ d ∈ [(⟨1, "DAI", 333333333333333333, []⟩ : Donation),
            ⟨2, "DAI", 333333333333333333, []⟩, ⟨3, "DAI", 333333333333333333, []⟩],
       tokenSum [(⟨1, "DAI", 333333333333333333, []⟩ : Donation),
                 ⟨2, "DAI", 333333333333333333, []⟩,
                 ⟨3, "DAI", 333333333333333333, []⟩] d.token ≤ WAD)
    ∧ ∃ res,
        fixDonationRoundingErrors
          [(⟨1, "DAI", 333333333333333333, []⟩ : Donation),
           ⟨2, "DAI", 333333333333333333, []⟩, ⟨3, "DAI", 333333333333333333, []⟩] = .ok res ∧
        res.length = 3 ∧
        ∀ j d,
          [(⟨1, "DAI", 333333333333333333, []⟩ : Donation),
           ⟨2, "DAI", 333333333333333333, []⟩, ⟨3, "DAI", 333333333333333333, []⟩][j]? = some d →
          res[j]? = some (if firstTokenIdx
              [(⟨1, "DAI", 333333333333333333, []⟩ : Donation),
               ⟨2, "DAI", 333333333333333333, []⟩,
               ⟨3, "DAI", 333333333333333333, []⟩] d.token = j
            then { d with ratio := d.ratio
              + (WAD - tokenSum
                  [(⟨1, "DAI", 333333333333333333, []⟩ : Donation),
                   ⟨2, "DAI", 333333333333333333, []⟩,
                   ⟨3, "DAI", 333333333333333333, []⟩] d.token) }
            else d) :=
  ⟨by decide, fixDonationRoundingErrors_shortfall_to_first _ (by decide)⟩

/-- C3: `fixDonationRoundingErrors` is idempotent on inputs satisfying the precondition:
the first application succeeds, and applying the function to its own output returns that
output unchanged (every group already sums to `WAD`, so every shortfall is zero). -/
theorem fixDonationRoundingErrors_idempotent (donations : List Donation)
    (hpre : ∀ d ∈ donations, tokenSum donations d.token ≤ WAD) :
    ∃ res, fixDonationRoundingErrors donations = .ok res ∧
      fixDonationRoundingErrors res = .ok res := by
  refine ⟨fixUpTo donations donations.length, fixDonationRoundingErrors_eq_ok donations hpre, ?_⟩
  have hall : ∀ d ∈ fixUpTo donations donations.length,
      tokenSum (fixUpTo donations donations.length) d.token = WAD :=
    fun d hd => tokenSum_fixed_result donations d.token ⟨d, hd, rfl⟩
  have hok := fixDonationRoundingErrors_eq_ok (fixUpTo donations donations.length)
    (fun d hd => le_of_eq (hall d hd))
  rw [hok, fixUpTo_of_all_WAD _ hall]

/-- Witness for C3 at a concrete two-token cart. -/
theorem fixDonationRoundingErrors_idempotent_witness :
    (∀ d ∈ [(⟨1, "ETH", WAD - 7, []⟩ : Donation), ⟨2, "DAI", WAD - 5, []⟩],
       tokenSum [(⟨1, "ETH", WAD - 7, []⟩ : Donation), ⟨2, "DAI", WAD - 5, []⟩] d.token ≤ WAD)
    ∧ ∃ res,
        fixDonationRoundingErrors
          [(⟨1, "ETH", WAD - 7, []⟩ : Donation), ⟨2, "DAI", WAD - 5, []⟩] = .ok res ∧
        fixDonationRoundingErrors res = .ok res :=
  ⟨by decide, fixDonationRoundingErrors_idempotent _ (by decide)⟩

/-- C4: `fixDonationRoundingErrors` throws the invariant-violation error
"Ratios sum to greater than 100%" exactly when some donation's token group has input
ratios summing to strictly more than `WAD`; when no group exceeds `WAD` it returns
an adjusted array and never throws. -/
theorem fixDonationRoundingErrors_error_iff (donations : List Donation) :
    (fixDonationRoundingErrors donations = .error "Ratios sum to greater than 100%"
      ↔ ∃ d ∈ donations, WAD < tokenSum donations d.token)
    ∧ ((∀ d ∈ donations, tokenSum donations d.token ≤ WAD) →
        ∃ res, fixDonationRoundingErrors donations = .ok res) := by
  constructor
  · constructor
    · intro herr
      by_contra hno
      push_neg at hno
      rw [fixDonationRoundingErrors_eq_ok donations hno] at herr
      simp at herr
    · exact fixDonationRoundingErrors_eq_error donations
  · intro hpre
    exact ⟨_, fixDonationRoundingErrors_eq_ok donations hpre⟩

/-- Witness for C4: a concrete over-100% cart throws, a concrete valid cart does not. -/
theorem fixDonationRoundingErrors_error_iff_witness :
    fixDonationRoundingErrors [(⟨1, "DAI", 2 * WAD, []⟩ : Donation)] =
      .error "Ratios sum to greater than 100%"
    ∧ ∃ res, fixDonationRoundingErrors [(⟨1, "DAI", WAD - 3, []⟩ : Donation)] = .ok res :=
  ⟨(fixDonationRoundingErrors_error_iff [⟨1, "DAI", 2 * WAD, []⟩]).1.2 (by decide),
    (fixDonationRoundingErrors_error_iff [⟨1, "DAI", WAD - 3, []⟩]).2 (by decide)⟩

/-- Embeds `getConvertedAmount` (cart.ts lines 104-108). `quotes` is the token-address →
DAI-exchange-rate table; `quotes.value[tokenAddress] ?? 0` defaults a missing entry to
rate 0. JavaScript numbers are modelled as exact rationals; the JavaScript division
`1 / 0` produces the non-finite value Infinity (and multiplying by it stays non-finite)
rather than throwing, so a non-finite numeric result is modelled as `none`. -/
def getConvertedAmount (quotes : List (String × ℚ)) (amount : ℚ) (tokenAddress : String)
    (direction : Int) : Option ℚ :=
  let exchangeRate := (quotes.lookup tokenAddress).getD 0
  if direction = 1 then some (amount * exchangeRate)
  else if exchangeRate = 0 then none
  else some (amount * (1 / exchangeRate))

/-- C5: for a token with a stored nonzero quote, converting an amount to the reference
unit (direction 1, multiply by the rate) and back (direction -1, divide by the rate)
returns the original amount exactly, over exact arithmetic. -/
theorem getConvertedAmount_roundtrip (quotes : List (String × ℚ)) (x : ℚ) (token : String)
    (r : ℚ) (hq : quotes.lookup token = some r) (hr : r ≠ 0) :
    (getConvertedAmount quotes x token 1).bind
      (fun y => getConvertedAmount quotes y token (-1)) = some x := by
  have h1 : getConvertedAmount quotes x token 1 = some (x * r) := by
    unfold getConvertedAmount
    rw [hq]
    simp
  have h2 : getConvertedAmount quotes (x * r) token (-1) = some (x * r * (1 / r)) := by
    unfold getConvertedAmount
    rw [hq]
    simp only [Option.getD_some]
    rw [if_neg (by decide : ¬((-1 : Int) = 1)), if_neg hr]
  rw [h1, Option.some_bind, h2]
  congr 1
  field_simp

/-- Witness for C5 at a concrete quote table (1 token = 2 DAI) and amount 3. -/
theorem getConvertedAmount_roundtrip_witness :
    [("0xGTC", (2 : ℚ))].lookup "0xGTC" = some 2 ∧ ((2 : ℚ) ≠ 0) ∧
    (getConvertedAmount [("0xGTC", 2)] 3 "0xGTC" 1).bind
      (fun y => getConvertedAmount [("0xGTC", 2)] y "0xGTC" (-1)) = some 3 :=
  ⟨by decide, by decide, getConvertedAmount_roundtrip [("0xGTC", 2)] 3 "0xGTC" 2 (by decide) (by decide)⟩

/-- C6 counterexample: for a token absent from the quotes table and direction 1, the
call returns the plain numeric result 0 (the rate silently defaults to 0); no error of
any kind is produced, contradicting the claim that a MissingQuote error propagates to
the caller for every amount and every direction. -/
theorem getConvertedAmount_missing_counterexample :
    getConvertedAmount [] 5 "0xToken" 1 = some 0 ∧
    getConvertedAmount [] 5 "0xToken" 1 ≠ none := by
  have h : getConvertedAmount [] 5 "0xToken" 1 = some 0 := by
    unfold getConvertedAmount
    simp
  exact ⟨h, by rw [h]; simp⟩

/-- C6 amended: a conversion for a token with no entry in the quotes table never raises
an error: the rate defaults to 0, direction 1 returns the numeric result 0
(amount times rate 0), and any other direction divides by zero, yielding a non-finite
JavaScript number (modelled `none`) rather than a propagated error. -/
theorem getConvertedAmount_missing_default (quotes : List (String × ℚ)) (amount : ℚ)
    (token : String) (direction : Int) (h : quotes.lookup token = none) :
    getConvertedAmount quotes amount token direction =
      if direction = 1 then some 0 else none := by
  unfold getConvertedAmount
  rw [h]
  simp only [Option.getD_none]
  by_cases hd : direction = 1
  · rw [if_pos hd, if_pos hd, mul_zero]
  · rw [if_neg hd, if_neg hd]
    simp

/-- Witness for C6's amended statement at an empty quotes table. -/
theorem getConvertedAmount_missing_default_witness :
    ([] : List (String × ℚ)).lookup "0xToken" = none ∧
    getConvertedAmount [] 7 "0xToken" (-1) = (if ((-1 : Int)) = 1 then some 0 else none) :=
  ⟨rfl, getConvertedAmount_missing_default [] 7 "0xToken" (-1) rfl⟩

/-- Embeds the status computation of `getGrantRound` (grantRounds.ts lines 202-207):
`now >= startTime && now < endTime ? 'Active' : now < startTime ? 'Upcoming' : 'Completed'`,
where `now = Date.now() / 1000` and the bounds are `BigNumber.toNumber()` values; all
are modelled as rationals. -/
def getGrantRoundStatus (now startTime endTime : ℚ) : String :=
  if startTime ≤ now ∧ now < endTime then "Active"
  else if now < startTime then "Upcoming"
  else "Completed"

/-- C7: the status is a pure function of `now` against the half-open interval
`[startTime, endTime)`: "Active" iff startTime ≤ now < endTime, "Upcoming" iff
now < startTime, and "Completed" otherwise, i.e. iff startTime ≤ now and endTime ≤ now. -/
theorem getGrantRoundStatus_cases (now startTime endTime : ℚ) :
    (getGrantRoundStatus now startTime endTime = "Active"
        ↔ startTime ≤ now ∧ now < endTime)
    ∧ (getGrantRoundStatus now startTime endTime = "Upcoming" ↔ now < startTime)
    ∧ (getGrantRoundStatus now startTime endTime = "Completed"
        ↔ startTime ≤ now ∧ endTime ≤ now) := by
  unfold getGrantRoundStatus
  split_ifs with h1 h2
  · exact ⟨⟨fun _ => h1, fun _ => rfl⟩,
      ⟨fun he => absurd he (by decide), fun hlt => absurd hlt (not_lt.mpr h1.1)⟩,
      ⟨fun he => absurd he (by decide), fun hc => absurd h1.2 (not_lt.mpr hc.2)⟩⟩
  · exact ⟨⟨fun he => absurd he (by decide), fun hc => absurd hc h1⟩,
      ⟨fun _ => h2, fun _ => rfl⟩,
      ⟨fun he => absurd he (by decide), fun hc => absurd h2 (not_lt.mpr hc.1)⟩⟩
  · have hs : startTime ≤ now := not_lt.mp h2
    have he : endTime ≤ now := le_of_not_lt (fun hlt => h1 ⟨hs, hlt⟩)
    exact ⟨⟨fun heq => absurd heq (by decide), fun hc => absurd hc h1⟩,
      ⟨fun heq => absurd heq (by decide), fun hc => absurd hc h2⟩,
      ⟨fun _ => ⟨hs, he⟩, fun _ => rfl⟩⟩

/-- A contribution record; the fields used by grantRounds.ts: the target grant
identifier, the decimal amount, and the round addresses it was made in
(`contribution.inRounds`). Grant identifiers (TS strings interconverted with numbers
via `Number(grantId)`) are modelled as `Nat`. -/
structure Contribution where
  grantId : Nat
  amount : ℚ
  inRounds : List String
deriving DecidableEq, Repr

/-- A grant round; the fields of the TS `GrantRound` object read by
`getGrantsGrantRoundDetails` (tokens are passed through opaquely, modelled by their
address strings). -/
structure GrantRound where
  address : String
  metaPtr : String
  matchingToken : String
  donationToken : String
deriving DecidableEq, Repr

/-- Resolved round metadata; `name` and the grant membership list `grants` may be
absent (`undefined`), hence `Option`. -/
structure GrantRoundMetadataResolution where
  name : Option String
  grants : Option (List Nat)
deriving DecidableEq, Repr

/-- One sampled point of a grant's prediction curve, as read by
`getGrantsGrantRoundDetails` (`predictions.predictions[k].predictedGrantMatch` /
`.predictionDiff`). -/
structure PredictionEntry where
  predictionPoint : ℚ
  predictedGrantMatch : ℚ
  predictionDiff : ℚ
deriving DecidableEq, Repr

/-- A grant's prediction set: the ordered prediction entries, one per prediction
point passed to the CLR predictor. -/
structure GrantPrediction where
  grantId : Nat
  predictions : List PredictionEntry
deriving DecidableEq, Repr

/-- The cached per-round CLR data built by `getGrantRoundGrantData`
(grantRounds.ts lines 310-318): the `predictions` dictionary maps grant ids to
`GrantPrediction`s (modelled as an association list). -/
structure GrantRoundCLR where
  grantRound : String
  totalPot : ℚ
  matchingTokenDecimals : Nat
  contributions : List Contribution
  predictions : List (Nat × GrantPrediction)
deriving DecidableEq, Repr

/-- The per-round summary object returned by `getGrantsGrantRoundDetails`
(grantRounds.ts lines 359-372). The `matching` / `prediction*` fields are `undefined`
when predictions are unavailable, hence `Option`. -/
structure GrantsRoundDetails where
  grantId : Nat
  address : String
  metaPtr : String
  name : String
  matchingToken : String
  donationToken : String
  contributions : List Contribution
  balance : ℚ
  matching : Option ℚ
  prediction1 : Option ℚ
  prediction10 : Option ℚ
  prediction100 : Option ℚ
deriving DecidableEq, Repr

/-- Modelled from the spec: `formatNumber` (imported by grantRounds.ts from
src/app/src/utils/utils.ts, which is not under src/) formats a numeric value to
`units` decimal places ("formatted to 2 decimal places"); modelled as rounding half-up
to `units` decimals over exact rationals. -/
def formatNumber (n : ℚ) (units : Nat) : ℚ :=
  ((⌊n * 10 ^ units + 1 / 2⌋ : Int) : ℚ) / 10 ^ units

/-- Modelled from the spec: `filterContributionsByGrantId` (imported by grantRounds.ts
from src/utils/data/contributions.ts, which is not under src/) keeps the contributions
targeting the given grant ("Contribution source: ... filterable by round and grant"). -/
def filterContributionsByGrantId (grantId : Nat) (contributions : List Contribution) :
    List Contribution :=
  contributions.filter (fun c => c.grantId = grantId)

/-- Modelled from the spec: `filterContributionsByGrantRound` (imported by grantRounds.ts
from src/utils/data/contributions.ts, which is not under src/) keeps the contributions
made in the given round; cart.ts line 270 determines round membership of a contribution
by `contribution.inRounds?.includes(grantRound.address)`. -/
def filterContributionsByGrantRound (round : GrantRound) (contributions : List Contribution) :
    List Contribution :=
  contributions.filter (fun c => c.inRounds.contains round.address)

/-- Embeds `getPredictionsForGrantInRound` (grantRounds.ts lines 332-334):
`roundData.predictions && roundData.predictions[Number(grantId)]`. When `roundData` is
`undefined` (the caller indexed a record with an absent round address) the dereference
of `.predictions` throws a TypeError, modelled as `.error`. In the TS type the
`predictions` field itself is always present (`&&` only guards a falsy field), and the
lookup returns the entry or `undefined`, modelled as `Option`. -/
def getPredictionsForGrantInRound (grantId : Nat) (roundData : Option GrantRoundCLR) :
    Except String (Option GrantPrediction) :=
  match roundData with
  | none => .error "TypeError: Cannot read properties of undefined (reading 'predictions')"
  | some rd => .ok (rd.predictions.lookup grantId)

/-- The body of the `rounds.map((round) => ...)` closure in `getGrantsGrantRoundDetails`
(grantRounds.ts lines 349-373) for a single round: look up the grant's predictions in
the round's CLR data (which can throw, see `getPredictionsForGrantInRound`), filter and
total this grant's contributions for the round, and build the summary object.
Indexing `roundsMetadata[round.metaPtr].name` on an absent metadata key likewise throws,
and `.name || ''` defaults a missing name to the empty string. An out-of-range
`predictions.predictions[k]` index is `undefined`, and the resulting field undefined,
modelled by `Option.bind`. -/
def roundDetailFor (grantId : Nat) (grantContributions : List Contribution)
    (roundsMetadata : List (String × GrantRoundMetadataResolution))
    (grantRoundsCLRData : List (String × GrantRoundCLR))
    (round : GrantRound) : Except String GrantsRoundDetails :=
  match getPredictionsForGrantInRound grantId (grantRoundsCLRData.lookup round.address) with
  | .error e => .error e
  | .ok predictions =>
    let roundContributions := filterContributionsByGrantRound round grantContributions
    let roundsContributionTotal :=
      roundContributions.foldl (fun carr contrib => contrib.amount + carr) 0
    match roundsMetadata.lookup round.metaPtr with
    | none => .error "TypeError: Cannot read properties of undefined (reading 'name')"
    | some metadata =>
      .ok {
        grantId := grantId
        address := round.address
        metaPtr := round.metaPtr
        name := metadata.name.getD ""
        matchingToken := round.matchingToken
        donationToken := round.donationToken
        contributions := roundContributions
        balance := formatNumber roundsContributionTotal 2
        matching := predictions.bind
          (fun p => (p.predictions[0]?).map (fun x => formatNumber x.predictedGrantMatch 2))
        prediction1 := predictions.bind
          (fun p => (p.predictions[1]?).map (fun x => formatNumber x.predictionDiff 2))
        prediction10 := predictions.bind
          (fun p => (p.predictions[2]?).map (fun x => formatNumber x.predictionDiff 2))
        prediction100 := predictions.bind
          (fun p => (p.predictions[3]?).map (fun x => formatNumber x.predictionDiff 2)) }

/-- Left-to-right map whose body may throw, aborting the whole map — the behaviour of
`rounds.map((round) => ...)` when the closure body can raise. -/
def mapExcept (f : GrantRound → Except String GrantsRoundDetails) :
    List GrantRound → Except String (List GrantsRoundDetails)
  | [] => .ok []
  | round :: rest =>
    match f round with
    | .error e => .error e
    | .ok detail =>
      match mapExcept f rest with
      | .error e => .error e
      | .ok details => .ok (detail :: details)

/-- Embeds `getGrantsGrantRoundDetails` (grantRounds.ts lines 339-374): filter this
grant's contributions once, then map every round in `rounds` to its summary. -/
def getGrantsGrantRoundDetails (grantId : Nat) (rounds : List GrantRound)
    (roundsMetadata : List (String × GrantRoundMetadataResolution))
    (grantRoundsCLRData : List (String × GrantRoundCLR))
    (contributions : List Contribution) : Except String (List GrantsRoundDetails) :=
  mapExcept
    (roundDetailFor grantId (filterContributionsByGrantId grantId contributions)
      roundsMetadata grantRoundsCLRData)
    rounds

lemma mapExcept_error_of_mem (f : GrantRound → Except String GrantsRoundDetails)
    (l : List GrantRound) (round : GrantRound) (hm : round ∈ l)
    (e : String) (he : f round = .error e) :
    ∃ e', mapExcept f l = .error e' := by
  induction l with
  | nil => cases hm
  | cons a as ih =>
    rcases List.mem_cons.mp hm with rfl | hmem
    · exact ⟨e, by unfold mapExcept; rw [he]⟩
    · cases hfa : f a with
      | error e2 => exact ⟨e2, by unfold mapExcept; rw [hfa]⟩
      | ok s =>
        obtain ⟨e', hrec⟩ := ih hmem
        refine ⟨e', ?_⟩
        unfold mapExcept
        rw [hfa, hrec]

lemma mapExcept_ok_get (f : GrantRound → Except String GrantsRoundDetails) :
    ∀ (l : List GrantRound) (res : List GrantsRoundDetails), mapExcept f l = .ok res →
      ∀ (i : Nat) (round : GrantRound), l[i]? = some round →
        ∃ s, res[i]? = some s ∧ f round = .ok s := by
  intro l
  induction l with
  | nil =>
    intro res h i round hi
    simp at hi
  | cons a as ih =>
    intro res h i round hi
    unfold mapExcept at h
    cases hfa : f a with
    | error e =>
      rw [hfa] at h
      simp at h
    | ok s =>
      rw [hfa] at h
      cases hrest : mapExcept f as with
      | error e =>
        rw [hrest] at h
        simp at h
      | ok ss =>
        rw [hrest] at h
        simp only [Except.ok.injEq] at h
        subst h
        cases i with
        | zero =>
          rw [List.getElem?_cons_zero] at hi
          obtain rfl := Option.some.inj hi
          exact ⟨s, by simp, hfa⟩
        | succ i =>
          rw [List.getElem?_cons_succ] at hi
          obtain ⟨s', hs', hf'⟩ := ih ss hrest i round hi
          exact ⟨s', by simpa using hs', hf'⟩

/-- C10: `getGrantsGrantRoundDetails` is total only when every round in the input list
has an entry in the `grantRoundsCLRData` record: whenever some round's address is absent
from that record, the call fails with a thrown TypeError (the `.predictions` dereference
of an absent record inside `getPredictionsForGrantInRound`) instead of returning
summaries. -/
theorem getGrantsGrantRoundDetails_missing_clr_errors (grantId : Nat)
    (rounds : List GrantRound)
    (roundsMetadata : List (String × GrantRoundMetadataResolution))
    (grantRoundsCLRData : List (String × GrantRoundCLR))
    (contributions : List Contribution)
    (h : ∃ round ∈ rounds, grantRoundsCLRData.lookup round.address = none) :
    ∃ e, getGrantsGrantRoundDetails grantId rounds roundsMetadata grantRoundsCLRData
        contributions = .error e := by
  obtain ⟨round, hmem, hlook⟩ := h
  have herr : roundDetailFor grantId (filterContributionsByGrantId grantId contributions)
      roundsMetadata grantRoundsCLRData round =
      .error "TypeError: Cannot read properties of undefined (reading 'predictions')" := by
    unfold roundDetailFor
    rw [hlook]
    rfl
  exact mapExcept_error_of_mem _ rounds round hmem _ herr

/-- The concrete round used in the C10 witness. -/
def c10round : GrantRound :=
  { address := "0xRoundX", metaPtr := "metaX", matchingToken := "0xMT", donationToken := "0xDT" }

/-- Witness for C10: one round whose address has no entry in an empty CLR data record. -/
theorem getGrantsGrantRoundDetails_missing_clr_errors_witness :
    (∃ round ∈ [c10round], ([] : List (String × GrantRoundCLR)).lookup round.address = none)
    ∧ ∃ e, getGrantsGrantRoundDetails 1 [c10round] [] [] [] = .error e :=
  ⟨⟨c10round, List.mem_cons_self c10round [], rfl⟩,
    getGrantsGrantRoundDetails_missing_clr_errors 1 [c10round] [] [] []
      ⟨c10round, List.mem_cons_self c10round [], rfl⟩⟩

lemma formatNumber_intCast (k : Int) : formatNumber (k : ℚ) 2 = (k : ℚ) := by
  unfold formatNumber
  have hfloor : ⌊(k : ℚ) * 10 ^ 2 + 1 / 2⌋ = k * 100 := by
    rw [Int.floor_eq_iff]
    push_cast
    constructor
    · linarith
    · linarith
  rw [hfloor]
  push_cast
  rw [show ((10 : ℚ) ^ 2) = 100 from by norm_num, mul_div_assoc]
  norm_num

/-- C9 (amended): for every round whose CLR data and grant predictions are available and
carry the six prediction points 0, 1, 10, 100, 1000, 10000, the summary emitted by
`getGrantsGrantRoundDetails` reports the formatted current match at the 0 point in
`matching` and the formatted prediction deltas at the 1, 10 and 100 points in
`prediction1`, `prediction10`, `prediction100` (the 1000-point delta is not reported). -/
theorem getGrantsGrantRoundDetails_prediction_fields (grantId : Nat)
    (rounds : List GrantRound)
    (roundsMetadata : List (String × GrantRoundMetadataResolution))
    (grantRoundsCLRData : List (String × GrantRoundCLR))
    (contributions : List Contribution)
    (res : List GrantsRoundDetails) (i : Nat) (round : GrantRound)
    (rd : GrantRoundCLR) (p : GrantPrediction) (e0 e1 e2 e3 e4 e5 : PredictionEntry)
    (hres : getGrantsGrantRoundDetails grantId rounds roundsMetadata grantRoundsCLRData
      contributions = .ok res)
    (hround : rounds[i]? = some round)
    (hclr : grantRoundsCLRData.lookup round.address = some rd)
    (hp : rd.predictions.lookup grantId = some p)
    (hes : p.predictions = [e0, e1, e2, e3, e4, e5])
    (h0 : e0.predictionPoint = 0) (h1 : e1.predictionPoint = 1)
    (h2 : e2.predictionPoint = 10) (h3 : e3.predictionPoint = 100) :
    ∃ s, res[i]? = some s
      ∧ s.matching = some (formatNumber e0.predictedGrantMatch 2)
      ∧ s.prediction1 = some (formatNumber e1.predictionDiff 2)
      ∧ s.prediction10 = some (formatNumber e2.predictionDiff 2)
      ∧ s.prediction100 = some (formatNumber e3.predictionDiff 2) := by
  unfold getGrantsGrantRoundDetails at hres
  obtain ⟨s, hsget, hfs⟩ := mapExcept_ok_get _ rounds res hres i round hround
  refine ⟨s, hsget, ?_⟩
  unfold roundDetailFor at hfs
  rw [hclr] at hfs
  simp only [getPredictionsForGrantInRound] at hfs
  rw [hp] at hfs
  cases hmd : roundsMetadata.lookup round.metaPtr with
  | none =>
    rw [hmd] at hfs
    simp at hfs
  | some metadata =>
    rw [hmd] at hfs
    simp only [Except.ok.injEq] at hfs
    subst hfs
    simp [hes]

/-- The concrete round used in the C9 counterexample and witness. -/
def c9round : GrantRound :=
  { address := "0xRoundR", metaPtr := "metaR", matchingToken := "0xMT", donationToken := "0xDT" }

/-- Concrete prediction entries at the six points 0/1/10/100/1000/10000, with pairwise
distinct prediction deltas 0,1,2,3,4,5. -/
def c9entries : List PredictionEntry :=
  [{ predictionPoint := 0, predictedGrantMatch := 7, predictionDiff := 0 },
   { predictionPoint := 1, predictedGrantMatch := 8, predictionDiff := 1 },
   { predictionPoint := 10, predictedGrantMatch := 9, predictionDiff := 2 },
   { predictionPoint := 100, predictedGrantMatch := 10, predictionDiff := 3 },
   { predictionPoint := 1000, predictedGrantMatch := 11, predictionDiff := 4 },
   { predictionPoint := 10000, predictedGrantMatch := 12, predictionDiff := 5 }]

/-- The concrete prediction set for grant 1 in the C9 scenario. -/
def c9pred : GrantPrediction := { grantId := 1, predictions := c9entries }

/-- The concrete CLR data record of round `c9round`. -/
def c9clr : GrantRoundCLR :=
  { grantRound := "0xRoundR", totalPot := 1000, matchingTokenDecimals := 18,
    contributions := [], predictions := [(1, c9pred)] }

/-- The concrete metadata record of round `c9round`. -/
def c9md : List (String × GrantRoundMetadataResolution) :=
  [("metaR", { name := some "Round R", grants := some [1] })]

/-- The summary `getGrantsGrantRoundDetails` emits for the C9 scenario. -/
def c9res : GrantsRoundDetails :=
  { grantId := 1, address := "0xRoundR", metaPtr := "metaR", name := "Round R",
    matchingToken := "0xMT", donationToken := "0xDT", contributions := [],
    balance := formatNumber 0 2,
    matching := some (formatNumber 7 2),
    prediction1 := some (formatNumber 1 2),
    prediction10 := some (formatNumber 2 2),
    prediction100 := some (formatNumber 3 2) }

/-- C9 counterexample: at a concrete input whose 1000-point prediction delta is 4
(pairwise distinct from all other deltas), the emitted summary carries the formatted
0-point match and the formatted 1/10/100-point deltas, and none of its prediction
fields equals the formatted 1000-point delta — so the claim that deltas at the
1, 10, 100 *and 1000* points are reported is false. -/
theorem getGrantsGrantRoundDetails_no_prediction1000 :
    getGrantsGrantRoundDetails 1 [c9round] c9md [("0xRoundR", c9clr)] [] = .ok [c9res]
    ∧ (c9entries.map fun x => x.predictionPoint) = [0, 1, 10, 100, 1000, 10000]
    ∧ (c9entries.map fun x => x.predictionDiff) = [0, 1, 2, 3, 4, 5]
    ∧ c9res.matching ≠ some (formatNumber 4 2)
    ∧ c9res.prediction1 ≠ some (formatNumber 4 2)
    ∧ c9res.prediction10 ≠ some (formatNumber 4 2)
    ∧ c9res.prediction100 ≠ some (formatNumber 4 2) := by
  have h1 : formatNumber (1 : ℚ) 2 = 1 := by simpa using formatNumber_intCast 1
  have h2 : formatNumber (2 : ℚ) 2 = 2 := by simpa using formatNumber_intCast 2
  have h3 : formatNumber (3 : ℚ) 2 = 3 := by simpa using formatNumber_intCast 3
  have h4 : formatNumber (4 : ℚ) 2 = 4 := by simpa using formatNumber_intCast 4
  have h7 : formatNumber (7 : ℚ) 2 = 7 := by simpa using formatNumber_intCast 7
  refine ⟨rfl, rfl, rfl, ?_, ?_, ?_, ?_⟩
  · simp only [c9res, h7, h4, ne_eq, Option.some.injEq]
    norm_num
  · simp only [c9res, h1, h4, ne_eq, Option.some.injEq]
    norm_num
  · simp only [c9res, h2, h4, ne_eq, Option.some.injEq]
    norm_num
  · simp only [c9res, h3, h4, ne_eq, Option.some.injEq]
    norm_num

/-- Witness for C9's amended statement at the concrete scenario. -/
theorem getGrantsGrantRoundDetails_prediction_fields_witness :
    (getGrantsGrantRoundDetails 1 [c9round] c9md [("0xRoundR", c9clr)] [] = .ok [c9res])
    ∧ ∃ s, [c9res][0]? = some s
        ∧ s.matching = some (formatNumber (7 : ℚ) 2)
        ∧ s.prediction1 = some (formatNumber (1 : ℚ) 2)
        ∧ s.prediction10 = some (formatNumber (2 : ℚ) 2)
        ∧ s.prediction100 = some (formatNumber (3 : ℚ) 2) :=
  ⟨rfl,
    getGrantsGrantRoundDetails_prediction_fields 1 [c9round] c9md [("0xRoundR", c9clr)] []
      [c9res] 0 c9round c9clr c9pred
      { predictionPoint := 0, predictedGrantMatch := 7, predictionDiff := 0 }
      { predictionPoint := 1, predictedGrantMatch := 8, predictionDiff := 1 }
      { predictionPoint := 10, predictedGrantMatch := 9, predictionDiff := 2 }
      { predictionPoint := 100, predictedGrantMatch := 10, predictionDiff := 3 }
      { predictionPoint := 1000, predictedGrantMatch := 11, predictionDiff := 4 }
      { predictionPoint := 10000, predictedGrantMatch := 12, predictionDiff := 5 }
      rfl (by simp) rfl rfl rfl rfl rfl rfl rfl⟩

/-- The concrete round used in the C8 scenario. -/
def c8round : GrantRound :=
  { address := "0xRoundA", metaPtr := "metaA", matchingToken := "0xMT", donationToken := "0xDT" }

/-- Metadata of round `c8round`: its grant list contains only grant 2. -/
def c8meta : GrantRoundMetadataResolution := { name := some "Round A", grants := some [2] }

/-- The metadata record for the C8 scenario. -/
def c8md : List (String × GrantRoundMetadataResolution) := [("metaA", c8meta)]

/-- CLR data of round `c8round` (present, with no predictions computed). -/
def c8clr : GrantRoundCLR :=
  { grantRound := "0xRoundA", totalPot := 500, matchingTokenDecimals := 18,
    contributions := [], predictions := [] }

/-- The summary `getGrantsGrantRoundDetails` emits in the C8 scenario. -/
def c8res : GrantsRoundDetails :=
  { grantId := 1, address := "0xRoundA", metaPtr := "metaA", name := "Round A",
    matchingToken := "0xMT", donationToken := "0xDT", contributions := [],
    balance := formatNumber 0 2,
    matching := none, prediction1 := none, prediction10 := none, prediction100 := none }

/-- C8 (code bug): grant 1 is NOT in round `c8round`'s metadata grant list (which is
`[2]`), yet `getGrantsGrantRoundDetails` still emits a summary for that round — the
returned array has the round's entry instead of excluding it. The implementation maps
over every round of its input without consulting the metadata grant list, contradicting
its own doc comment ("Returns the details for all grantRounds this grant is a member
of") and the spec's membership rule. -/
theorem getGrantsGrantRoundDetails_no_membership_filter :
    c8md.lookup c8round.metaPtr = some c8meta
    ∧ c8meta.grants = some [2]
    ∧ (1 : Nat) ∉ [2]
    ∧ getGrantsGrantRoundDetails 1 [c8round] c8md [("0xRoundA", c8clr)] [] = .ok [c8res] :=
  ⟨rfl, rfl, by decide, rfl⟩
